import Mathlib

/-!
Shallow embedding of the vimdoc documentation compiler (google/vimdoc),
covering the block metadata model (vimdoc/block.py), the paragraph
aggregator (vimdoc/paragraph.py) and the module merger / section orderer
(vimdoc/module.py), together with theorems checking the specification's
claims against this embedding.

Conventions used throughout:
* Python dictionaries with a fixed key set (block.locals, block.globals)
  are modelled as structures whose fields are Option-valued; a field value
  of none means the key is absent.
* Python OrderedDict is modelled as an association list in insertion
  order; assigning to an existing key replaces the value in place,
  assigning to a fresh key appends at the end.
* Raising an exception is modelled with Except; where Python mutates state
  before raising, the function returns the mutated state alongside the
  error.
-/

namespace Vimdoc

/-- Block type constants defined in vimdoc/__init__.py. -/
inductive VType where
  | SECTION
  | BACKMATTER
  | EXCEPTION
  | DICTIONARY
  | FUNCTION
  | COMMAND
  | SETTING
  | FLAG
deriving DecidableEq, Repr

/-- Tri-state value of block.locals['type'] (block.py):
none (key absent or None, "I don't know one way or the other"),
untyped (Python True, "definitely vimdoc but no type yet"),
or a concrete type constant. -/
inductive TypeState where
  | unset
  | untyped
  | typed (t : VType)
deriving DecidableEq, Repr

/-- Argument passed to Block.SetType: always either True or a concrete
type constant in the source (never None). -/
inductive SetTypeArg where
  | untyped
  | typed (t : VType)
deriving DecidableEq, Repr

/-- View a SetType argument as a type state. -/
def SetTypeArg.toState : SetTypeArg → TypeState
  | .untyped => .untyped
  | .typed t => .typed t

/-- Errors raised by the embedded code (vimdoc/error.py), plus the Python
builtin exceptions that the code can actually raise. -/
inductive VErr where
  | typeConflict (t1 t2 : TypeState)
  | multipleHeaders
  | invalidBlock (msg : String)
  | redundantControl (key : String)
  | inconsistentControl (key : String)
  | ambiguousBlock
  | duplicateSection (id : Option String)
  | duplicateBackmatter (id : Option String)
  | noSuchSection (id : Option String)
  | noSuchParentSection (name : String) (parentId : String)
  | neglectedSections (ids : List (Option String)) (order : List String)
  | orderedChildSections (id : Option String) (order : List String)
  | misplacedParentSection (id : String)
  | keyError (msg : String)
  | typeErrorNoneNotIterable
  | typeErrorNonePlusStr
  | attributeError (missingName : String)
  | assertionError
deriving DecidableEq, Repr

/-- Block.SetType (block.py lines 130-141).  `cur` is locals.get('type');
the result is the new value of locals['type'], or a TypeConflict error.
The expression `ourtype or newtype` evaluates to `newtype` exactly when
`ourtype` is falsy (None). -/
def setType (cur : TypeState) (new : SetTypeArg) : Except VErr TypeState :=
  if new = .untyped ∨ new.toState = cur then
    .ok (if cur = .unset then new.toState else cur)
  else if cur = .unset ∨ cur = .untyped then
    .ok new.toState
  else
    .error (.typeConflict cur new.toState)

/-- Repeated application of SetType, propagating the first error. -/
def setTypeAll (cur : TypeState) : List SetTypeArg → Except VErr TypeState
  | [] => .ok cur
  | a :: rest =>
    match setType cur a with
    | .ok t => setTypeAll t rest
    | .error e => .error e

/-- A successful SetType on a concretely-typed state never changes it. -/
theorem setType_concrete_fixed (t : VType) (a : SetTypeArg) (res : TypeState)
    (h : setType (.typed t) a = .ok res) : res = .typed t := by
  unfold setType at h
  split at h
  · simp at h
    simp [h]
  · split at h
    · rename_i h1 h2
      rcases h2 with h2 | h2 <;> simp at h2
    · simp at h
end Vimdoc

namespace Vimdoc

theorem setTypeAll_concrete_fixed (t : VType) (l : List SetTypeArg) (res : TypeState)
    (h : setTypeAll (.typed t) l = .ok res) : res = .typed t := by
  induction l with
  | nil => simpa [setTypeAll] using h.symm
  | cons a rest ih =>
    unfold setTypeAll at h
    cases hstep : setType (.typed t) a with
    | ok t' =>
      rw [hstep] at h
      have := setType_concrete_fixed t a t' hstep
      subst this
      exact ih h
    | error e => rw [hstep] at h; simp at h

end Vimdoc

namespace Vimdoc

/-- Python list.insert(i, a): inserts before position i, clamping i to the
list length (take and drop clamp in the same way). -/
def pyInsert (l : List α) (i : Nat) (a : α) : List α :=
  l.take i ++ a :: l.drop i

theorem self_mem_pyInsert (l : List α) (i : Nat) (a : α) : a ∈ pyInsert l i a := by
  simp [pyInsert]

theorem mem_pyInsert_of_mem {l : List α} {x : α} (i : Nat) (a : α)
    (h : x ∈ l) : x ∈ pyInsert l i a := by
  rw [← List.take_append_drop i l] at h
  rcases List.mem_append.1 h with h' | h'
  · exact List.mem_append.2 (Or.inl h')
  · exact List.mem_append.2 (Or.inr (List.mem_cons_of_mem a h'))

theorem mem_of_mem_pyInsert {l : List α} {x : α} {i : Nat} {a : α}
    (h : x ∈ pyInsert l i a) : x ∈ l ∨ x = a := by
  rcases List.mem_append.1 h with h' | h'
  · exact Or.inl (List.mem_of_mem_take h')
  · rcases List.mem_cons.1 h' with h'' | h''
    · exact Or.inr h''
    · exact Or.inl (List.mem_of_mem_drop h'')

theorem sublist_pyInsert (l : List α) (i : Nat) (a : α) : List.Sublist l (pyInsert l i a) := by
  conv_lhs => rw [← List.take_append_drop i l]
  exact List.Sublist.append_left (List.sublist_cons_self a (l.drop i)) (l.take i)

/-- The fixed built-in section order (module.py lines 255-264). -/
def defaultSectionOrder : List String :=
  ["intro", "config", "commands", "autocmds", "settings", "dicts",
   "functions", "exceptions", "mappings"]

/-- The loop body of Module._GetSectionOrder (module.py lines 269-278):
walk the built-in order; a built-in already in the order advances the
insertion cursor to just past its (first) occurrence; a built-in absent
from the order but present among the section ids is inserted at the
cursor, which then advances.  `secs` is the list of section-map keys
(section ids; a key is None when the block had no id). -/
def orderWalk (secs : List (Option String)) :
    List String → List String → Nat → List String
  | [], order, _ => order
  | b :: bs, order, idx =>
    if b ∈ order then
      orderWalk secs bs order (order.indexOf b + 1)
    else if some b ∈ secs then
      orderWalk secs bs (pyInsert order idx b) (idx + 1)
    else
      orderWalk secs bs order idx

/-- Module._GetSectionOrder (module.py lines 242-281). -/
def getSectionOrder (explicitOrder : Option (List String))
    (secs : List (Option String)) : List String :=
  let order := explicitOrder.getD []
  let order := orderWalk secs defaultSectionOrder order 0
  if some "about" ∈ secs ∧ "about" ∉ order then order ++ ["about"] else order

theorem mem_orderWalk_of_mem {secs : List (Option String)} {x : String}
    (bs : List String) (order : List String) (idx : Nat) (h : x ∈ order) :
    x ∈ orderWalk secs bs order idx := by
  induction bs generalizing order idx with
  | nil => simpa [orderWalk] using h
  | cons b bs ih =>
    unfold orderWalk
    split
    · exact ih _ _ h
    · split
      · exact ih _ _ (mem_pyInsert_of_mem _ _ h)
      · exact ih _ _ h

theorem builtin_mem_orderWalk {secs : List (Option String)} {b : String}
    (bs : List String) (order : List String) (idx : Nat)
    (hb : b ∈ bs) (hs : some b ∈ secs) :
    b ∈ orderWalk secs bs order idx := by
  induction bs generalizing order idx with
  | nil => cases hb
  | cons b' bs ih =>
    unfold orderWalk
    rcases List.mem_cons.1 hb with rfl | hb'
    · by_cases hmem : b ∈ order
      · rw [if_pos hmem]
        exact mem_orderWalk_of_mem _ _ _ hmem
      · rw [if_neg hmem, if_pos hs]
        exact mem_orderWalk_of_mem _ _ _ (self_mem_pyInsert _ _ _)
    · by_cases hmem : b' ∈ order
      · rw [if_pos hmem]
        exact ih _ _ hb'
      · rw [if_neg hmem]
        by_cases hsec : some b' ∈ secs
        · rw [if_pos hsec]
          exact ih _ _ hb'
        · rw [if_neg hsec]
          exact ih _ _ hb'

theorem mem_orderWalk_elim {secs : List (Option String)} {x : String}
    (bs : List String) (order : List String) (idx : Nat)
    (h : x ∈ orderWalk secs bs order idx) : x ∈ order ∨ x ∈ bs := by
  induction bs generalizing order idx with
  | nil => exact Or.inl (by simpa [orderWalk] using h)
  | cons b bs ih =>
    unfold orderWalk at h
    split at h
    · rcases ih _ _ h with h' | h'
      · exact Or.inl h'
      · exact Or.inr (List.mem_cons_of_mem _ h')
    · split at h
      · rcases ih _ _ h with h' | h'
        · rcases mem_of_mem_pyInsert h' with h'' | rfl
          · exact Or.inl h''
          · exact Or.inr (List.mem_cons_self _ _)
        · exact Or.inr (List.mem_cons_of_mem _ h')
      · rcases ih _ _ h with h' | h'
        · exact Or.inl h'
        · exact Or.inr (List.mem_cons_of_mem _ h')

theorem sublist_orderWalk {secs : List (Option String)}
    (bs : List String) (order : List String) (idx : Nat) :
    List.Sublist order (orderWalk secs bs order idx) := by
  induction bs generalizing order idx with
  | nil => simp [orderWalk]
  | cons b bs ih =>
    unfold orderWalk
    split
    · exact ih _ _
    · split
      · exact (sublist_pyInsert _ _ _).trans (ih _ _)
      · exact ih _ _

end Vimdoc

namespace Vimdoc

/-- C1: For every explicit order list naming only a subset of the built-in
section ids and every set of existing sections, the final section order
computed at module close inserts each missing built-in section that
exists (so every existing built-in appears in the final order), explicit
ids keep their relative order (the explicit order is a sublist of the
result), an existing about section always appears, and about is appended
last when not explicitly ordered; in particular, explicit order
[custom1, intro, custom2] with sections
(intro, commands, about, custom1, custom2) yields final order
[custom1, intro, commands, custom2, about]. -/
theorem c1_section_order_merge :
    getSectionOrder (some ["custom1", "intro", "custom2"])
        [some "intro", some "commands", some "about", some "custom1", some "custom2"]
      = ["custom1", "intro", "commands", "custom2", "about"]
    ∧ (∀ (explicitOrder : Option (List String)) (secs : List (Option String))
        (b : String), b ∈ defaultSectionOrder → some b ∈ secs →
        b ∈ getSectionOrder explicitOrder secs)
    ∧ (∀ (explicitOrder : Option (List String)) (secs : List (Option String)),
        some "about" ∈ secs → "about" ∈ getSectionOrder explicitOrder secs)
    ∧ (∀ (explicitList : List String) (secs : List (Option String)),
        List.Sublist explicitList (getSectionOrder (some explicitList) secs))
    ∧ (∀ (explicitList : List String) (secs : List (Option String)),
        some "about" ∈ secs → "about" ∉ explicitList →
        ∃ pre, getSectionOrder (some explicitList) secs = pre ++ ["about"]) := by
  refine ⟨by decide, ?_, ?_, ?_, ?_⟩
  · intro explicitOrder secs b hb hs
    simp only [getSectionOrder]
    split
    · exact List.mem_append.2 (Or.inl (builtin_mem_orderWalk _ _ _ hb hs))
    · exact builtin_mem_orderWalk _ _ _ hb hs
  · intro explicitOrder secs hs
    simp only [getSectionOrder]
    split
    · exact List.mem_append.2 (Or.inr (List.mem_singleton.2 rfl))
    · rename_i hcond
      rcases not_and_or.1 hcond with h | h
      · exact absurd hs h
      · exact not_not.1 h
  · intro explicitList secs
    simp only [getSectionOrder]
    split
    · exact ((sublist_orderWalk _ _ _).trans (List.sublist_append_left _ _))
    · exact sublist_orderWalk _ _ _
  · intro explicitList secs hs habout
    simp only [getSectionOrder]
    have hwalk : "about" ∉ orderWalk secs defaultSectionOrder explicitList 0 := by
      intro hmem
      rcases mem_orderWalk_elim _ _ _ hmem with h | h
      · exact habout h
      · revert h; decide
    rw [if_pos ⟨hs, hwalk⟩]
    exact ⟨_, rfl⟩

/-- Witness for the C1 theorem at concrete inputs. -/
theorem c1_witness :
    "commands" ∈ getSectionOrder (some ["custom1"]) [some "commands"]
    ∧ "about" ∈ getSectionOrder none [some "about"]
    ∧ (∃ pre, getSectionOrder (some ["custom1"]) [some "about", some "custom1"]
        = pre ++ ["about"]) := by
  refine ⟨?_, ?_, ?_⟩
  · exact c1_section_order_merge.2.1 (some ["custom1"]) [some "commands"]
      "commands" (by decide) (by decide)
  · exact c1_section_order_merge.2.2.1 none [some "about"] (by decide)
  · exact c1_section_order_merge.2.2.2.2 ["custom1"] [some "about", some "custom1"]
      (by decide) (by decide)

/-- C6: block types only narrow.  SetType with True or with the current
type leaves a concrete type unchanged; SetType on an unset or untyped
state installs the new concrete type; SetType with a different concrete
type fails with a type conflict naming both types; and no sequence of
SetType calls ever replaces one concrete type with a different one. -/
theorem c6_type_narrowing :
    (∀ t : VType, setType (.typed t) .untyped = .ok (.typed t)
      ∧ setType (.typed t) (.typed t) = .ok (.typed t))
    ∧ (∀ t : VType, setType .unset (.typed t) = .ok (.typed t)
      ∧ setType .untyped (.typed t) = .ok (.typed t))
    ∧ (∀ a b : VType, a ≠ b →
        setType (.typed a) (.typed b)
          = .error (.typeConflict (.typed a) (.typed b)))
    ∧ (∀ (a : VType) (l : List SetTypeArg) (res : TypeState),
        setTypeAll (.typed a) l = .ok res → res = .typed a) := by
  refine ⟨?_, ?_, ?_, fun a l res h => setTypeAll_concrete_fixed a l res h⟩
  · intro t
    constructor <;> simp [setType, SetTypeArg.toState]
  · intro t
    constructor <;> simp [setType, SetTypeArg.toState]
  · intro a b hne
    simp [setType, SetTypeArg.toState]
    exact fun h => absurd h.symm hne

/-- Witness for the C6 theorem at concrete inputs. -/
theorem c6_witness :
    setType (.typed .SECTION) (.typed .FUNCTION)
      = .error (.typeConflict (.typed .SECTION) (.typed .FUNCTION))
    ∧ (.typed .SECTION : TypeState) = .typed .SECTION := by
  constructor
  · exact c6_type_narrowing.2.2.1 .SECTION .FUNCTION (by decide)
  · exact c6_type_narrowing.2.2.2 .SECTION [.untyped, .typed .SECTION]
      (.typed .SECTION) (by rfl)

end Vimdoc

namespace Vimdoc

/-! String helpers.  Python's str operations are re-implemented over the
character list of the string so that all definitions reduce inside the
kernel.  Python's \s and \w classes are modelled by Char.isWhitespace and
ASCII alphanumerics/underscore (the documented arguments are ASCII). -/

/-- Python str.lstrip(): drop leading whitespace. -/
def pyLstrip (s : String) : String :=
  (s.data.dropWhile Char.isWhitespace).asString

/-- Python str.rstrip(): drop trailing whitespace. -/
def pyRstrip (s : String) : String :=
  ((s.data.reverse.dropWhile Char.isWhitespace).reverse).asString

/-- Python str.strip(). -/
def pyStrip (s : String) : String := pyLstrip (pyRstrip s)

/-- Python s.startswith(single character c). -/
def pyStartsWithChar (s : String) (c : Char) : Bool :=
  match s.data with
  | c' :: _ => c' = c
  | [] => false

/-- Python s[:1]; the empty string when s is empty. -/
def pyTakeOne (s : String) : String :=
  (s.data.take 1).asString

/-- Python s[1:]. -/
def pyDropOne (s : String) : String :=
  (s.data.drop 1).asString

/-- Python s[:-1]. -/
def pyDropLast (s : String) : String :=
  (s.data.take (s.data.length - 1)).asString

/-- Python s.endswith(suf). -/
def pyEndsWith (s suf : String) : Bool :=
  decide (s.data.drop (s.data.length - suf.data.length) = suf.data)
    && decide (suf.data.length ≤ s.data.length)

/-- Word characters for the \w class in the source regexes (ASCII). -/
def isWordChar (c : Char) : Bool := c.isAlphanum || c = '_'

/-- Start characters of the identifiers in the source regexes. -/
def isIdentStart (c : Char) : Bool := c.isAlpha || c = '_'

/-- One attempted match of the delimited-argument pattern
(regex.py required_arg / optional_arg without the lookaround):
openC, [a-zA-Z_][a-zA-Z0-9_]* optionally followed by three dots, closeC.
Returns the captured name and the remaining characters. -/
def matchDelimArg (openC closeC : Char) : List Char → Option (String × List Char)
  | c :: rest =>
    if c = openC then
      match rest with
      | d :: rest2 =>
        if isIdentStart d then
          let word := rest2.takeWhile isWordChar
          let rest3 := rest2.dropWhile isWordChar
          let dotted : String × List Char :=
            match rest3 with
            | '.' :: '.' :: '.' :: r =>
              if r.head? = some closeC then ("...", r) else ("", rest3)
            | _ => ("", rest3)
          match dotted.2 with
          | e :: r5 =>
            if e = closeC then some ((d :: word).asString ++ dotted.1, r5)
            else none
          | [] => none
        else none
      | [] => none
    else none
  | [] => none

/-- Scanner for _DelimitedRegex(...).findall (regex.py lines 194-202,
366-367): a match must not be preceded by a non-whitespace character and
must not be followed by a word character; scanning advances one character
on failure and past the match on success.  Fuel-driven recursion; fuel
starts at the string length, and every step consumes at least one
character, so fuel never runs out on the initial call. -/
def findDelimGo (openC closeC : Char) : Nat → List Char → Option Char → List String
  | 0, _, _ => []
  | _ + 1, [], _ => []
  | fuel + 1, c :: rest, prev =>
    let prevOk := match prev with
      | none => true
      | some p => p.isWhitespace
    if prevOk then
      match matchDelimArg openC closeC (c :: rest) with
      | some (name, rest') =>
        if rest'.head?.elim false isWordChar then
          findDelimGo openC closeC fuel rest (some c)
        else
          name :: findDelimGo openC closeC fuel rest' (some closeC)
      | none => findDelimGo openC closeC fuel rest (some c)
    else findDelimGo openC closeC fuel rest (some c)

/-- regex.required_arg.findall / regex.optional_arg.findall. -/
def findDelimArgs (openC closeC : Char) (s : String) : List String :=
  findDelimGo openC closeC s.data.length s.data none

def requiredArgFindAll (s : String) : List String := findDelimArgs '\x7b' '\x7d' s

def optionalArgFindAll (s : String) : List String := findDelimArgs '[' ']' s

/-- OrderedDict.fromkeys-based de-duplication (block.py _ParseArgs):
keeps the first occurrence of each element. -/
def dedupeKeepFirst (l : List String) : List String := go [] l
where
  go (seen : List String) : List String → List String
    | [] => []
    | x :: rest => if x ∈ seen then go seen rest else x :: go (x :: seen) rest

/-- Block._ParseArgs (block.py lines 277-282): accumulate the {required}
and [optional] argument names found on a line. -/
def parseArgsInto (req opt : List String) (line : String) :
    List String × List String :=
  (dedupeKeepFirst (req ++ requiredArgFindAll line),
   dedupeKeepFirst (opt ++ optionalArgFindAll line))

end Vimdoc

namespace Vimdoc

/-- Paragraph objects (vimdoc/paragraph.py).  Each carries its open flag
where the class allows reopening; BlankLine, DefaultLine, ExceptionLine
and SubHeaderLine are closed from construction on. -/
inductive Par where
  | text (opn : Bool) (txt : String)
  | blank
  | codeBlock (opn : Bool) (lines : List String)
  | listItem (opn : Bool) (leader : String) (txt : String)
  | defaultLine (arg : String) (value : String)
  | exceptionLine (exc : String) (descr : String)
  | subHeader (name : String)
deriving DecidableEq, Repr

/-- Whether a paragraph is open (paragraph.py: Paragraph.open). -/
def Par.isOpenP : Par → Bool
  | .text opn _ => opn
  | .blank => false
  | .codeBlock opn _ => opn
  | .listItem opn _ _ => opn
  | .defaultLine _ _ => false
  | .exceptionLine _ _ => false
  | .subHeader _ => false

/-- Paragraph.Close: set open to False. -/
def Par.closeP : Par → Par
  | .text _ txt => .text false txt
  | .blank => .blank
  | .codeBlock _ lines => .codeBlock false lines
  | .listItem _ leader txt => .listItem false leader txt
  | p => p

/-- isinstance(self[-1], TextParagraph); ListItem subclasses
TextParagraph in the source. -/
def Par.isTextInst : Par → Bool
  | .text _ _ => true
  | .listItem _ _ _ => true
  | _ => false

def Par.isListItemInst : Par → Bool
  | .listItem _ _ _ => true
  | _ => false

def Par.isCodeInst : Par → Bool
  | .codeBlock _ _ => true
  | _ => false

/-- TextParagraph.AddLine / CodeBlock.AddLine (paragraph.py): text
paragraphs join lines with a single space, code blocks append the raw
line.  Other paragraph classes store nothing (the closed ones are never
reached with AddLine from Block.AddLine). -/
def Par.addLineP (line : String) : Par → Par
  | .text opn txt => .text opn (if txt = "" then line else txt ++ " " ++ line)
  | .listItem opn leader txt =>
    .listItem opn leader (if txt = "" then line else txt ++ " " ++ line)
  | .codeBlock opn lines => .codeBlock opn (lines ++ [line])
  | p => p

/-- Apply f to the last paragraph (Python self[-1]). -/
def parsSetLast (f : Par → Par) : List Par → List Par
  | [] => []
  | [p] => [f p]
  | p :: rest => p :: parsSetLast f rest

/-- Paragraphs.Close (paragraph.py lines 115-117). -/
def parsClose (ps : List Par) : List Par := parsSetLast Par.closeP ps

/-- Paragraphs.IsType (paragraph.py lines 106-107): nonempty, last open,
and last an instance of the class. -/
def parsIsType (inst : Par → Bool) (ps : List Par) : Bool :=
  match ps.getLast? with
  | some p => p.isOpenP && inst p
  | none => false

/-- Paragraphs.SetType (paragraph.py lines 102-104). -/
def parsSetType (inst : Par → Bool) (new : Par) (ps : List Par) : List Par :=
  if parsIsType inst ps then ps else ps ++ [new]

/-- Paragraphs.AddLine on the last paragraph.  The ValueError for a
missing open paragraph is unreachable from Block.AddLine, which always
calls SetType first. -/
def parsAddLine (ps : List Par) (line : String) : List Par :=
  parsSetLast (Par.addLineP line) ps

/-- regex.list_item: match of `^\s*([*+-]|\d+\.)\s+` together with
list_item.sub('', line): returns the leader and the line with the whole
matched prefix removed, or none if the line is not a list item. -/
def listItemMatch (line : String) : Option (String × String) :=
  let rest := line.data.dropWhile Char.isWhitespace
  match rest with
  | c :: rest' =>
    if c = '*' ∨ c = '+' ∨ c = '-' then
      if (rest'.takeWhile Char.isWhitespace) ≠ [] then
        some ((String.mk [c]), (rest'.dropWhile Char.isWhitespace).asString)
      else none
    else if c.isDigit then
      let digits := rest.takeWhile Char.isDigit
      let after := rest.dropWhile Char.isDigit
      match after with
      | '.' :: after' =>
        if (after'.takeWhile Char.isWhitespace) ≠ [] then
          some ((digits ++ ['.']).asString,
                (after'.dropWhile Char.isWhitespace).asString)
        else none
      | _ => none
    else none
  | [] => none

/-- isinstance(..., BlankLine); a BlankLine is never open, so
Paragraphs.SetType(BlankLine) always appends a fresh one. -/
def Par.isBlankInstP : Par → Bool
  | .blank => true
  | _ => false

/-- Header directive kinds: the three Header subclasses in docline.py. -/
inductive HeaderKind where
  | usage
  | function
  | command
deriving DecidableEq, Repr

/-- A Header directive object (docline.py Header.Assign): the raw usage
template plus the required/optional argument names found in it. -/
structure HeaderDir where
  kind : HeaderKind
  usage : String
  reqs : List String
  opts : List String
deriving DecidableEq, Repr

/-- The vimdoc Block (vimdoc/block.py).  locals and globals dict keys are
modelled as Option-valued fields (none = key absent).  locals['children']
and locals['level'] are only used by module close; children are kept in a
side map there (sections are keyed by their unique ids), level is a
field here. -/
structure Block where
  -- locals
  type : TypeState := .unset
  id : Option String := none
  parentId : Option String := none
  name : Option String := none
  nspace : Option (Option String) := none  -- locals['namespace'] (value may be None)
  deprecated : Option String := none
  priv : Option Bool := none               -- locals['private']
  dict : Option String := none
  attr : Option String := none  -- locals['attribute']
  exception : Option (Option String) := none
  args : Option (List String) := none
  usageText : Option String := none        -- locals['usage']
  headCmd : Option String := none          -- locals['head']
  level : Option Nat := none
  localFlag : Option Bool := none          -- locals['local']
  -- globals
  gOrder : Option (List String) := none
  gAuthor : Option String := none
  gTagline : Option String := none
  gStylization : Option String := none
  gLibrary : Option Bool := none
  gStandalone : Option Bool := none
  -- remaining attributes
  header : Option HeaderDir := none
  paragraphs : List Par := []
  reqAcc : List String := []               -- _required_args
  optAcc : List String := []               -- _optional_args
  closed : Bool := false
  isSecondary : Bool := false
  isDefault : Bool := false
deriving DecidableEq, Repr

/-- The tail of Block.AddLine's normal path (block.py lines 101-112):
everything from self.paragraphs.SetType(paragraph.TextParagraph) on. -/
def Block.textTail (b : Block) (line : String) : Block :=
  let ps := parsSetType Par.isTextInst (.text true "") b.paragraphs
  -- Lines ending in '>' enter code blocks.
  if line = ">" ∨ pyEndsWith line " >" then
    let line' := pyRstrip (pyDropLast line)
    let ps := if line' ≠ "" then parsAddLine ps line' else ps
    { b with paragraphs := parsSetType Par.isCodeInst (.codeBlock true []) ps }
  else
    { b with paragraphs := parsAddLine ps line }

/-- Block.AddLine, non-code-block path (block.py lines 79-112). -/
def Block.addLineNormal (b : Block) (line : String) : Block :=
  -- Always grab the required/optional args.
  let acc := parseArgsInto b.reqAcc b.optAcc line
  let b := { b with reqAcc := acc.1, optAcc := acc.2 }
  -- Blank lines divide paragraphs.
  if pyStrip line = "" then
    { b with paragraphs := parsSetType Par.isBlankInstP .blank b.paragraphs }
  else
    -- Start lists if you get a list item.
    match listItemMatch line with
    | some (leader, rest) =>
      let ps := parsClose b.paragraphs
      let ps := parsSetType Par.isListItemInst (.listItem true leader "") ps
      { b with paragraphs := parsAddLine ps rest }
    | none =>
      if pyTakeOne line = " " ∨ pyTakeOne line = "\t" then
        -- Continue lists by indenting.
        if parsIsType Par.isListItemInst b.paragraphs then
          { b with paragraphs := parsAddLine b.paragraphs (pyLstrip line) }
        else
          b.textTail line
      else
        let b :=
          if parsIsType Par.isListItemInst b.paragraphs then
            { b with paragraphs := parsClose b.paragraphs }
          else b
        b.textTail line

/-- Block.AddLine (block.py lines 59-112).  Inside an open code block a
line starting with '<' closes it (the rest of the line, lstripped, is
reprocessed), a line whose first character is not a space or tab closes
it and is reprocessed, and every other line - including the empty line,
since Python's `line[:1] not in ' \t'` is False for the empty string -
is appended to the code block verbatim.  The reprocessing recursion in
the source always lands in the non-code-block path, because the code
block was just closed, so it is modelled by addLineNormal directly. -/
def Block.addLine (b : Block) (line : String) : Block :=
  if parsIsType Par.isCodeInst b.paragraphs then
    if pyStartsWithChar line '<' then
      let b := { b with paragraphs := parsClose b.paragraphs }
      let line' := pyLstrip (pyDropOne line)
      if line' ≠ "" then b.addLineNormal line' else b
    else if ¬(pyTakeOne line = "" ∨ pyTakeOne line = " " ∨ pyTakeOne line = "\t") then
      { b with paragraphs := parsClose b.paragraphs }.addLineNormal line
    else
      { b with paragraphs := parsAddLine b.paragraphs line }
  else
    b.addLineNormal line

/-- Fold addLine over a list of lines. -/
def Block.addLines (b : Block) (lines : List String) : Block :=
  lines.foldl Block.addLine b

end Vimdoc

namespace Vimdoc

theorem parsSetLast_append (f : Par → Par) (ps : List Par) (p : Par) :
    parsSetLast f (ps ++ [p]) = ps ++ [f p] := by
  induction ps with
  | nil => rfl
  | cons q qs ih =>
    cases qs with
    | nil => rfl
    | cons r rs => simpa [parsSetLast] using ih

theorem parsIsType_append (inst : Par → Bool) (ps : List Par) (p : Par) :
    parsIsType inst (ps ++ [p]) = (p.isOpenP && inst p) := by
  simp [parsIsType]

theorem parsAddLine_append_code (ps : List Par) (ls : List String) (line : String) :
    parsAddLine (ps ++ [.codeBlock true ls]) line
      = ps ++ [.codeBlock true (ls ++ [line])] := by
  simpa [parsAddLine, Par.addLineP] using
    parsSetLast_append (Par.addLineP line) ps (.codeBlock true ls)

/-- C8: while a code-block paragraph is open, every line that neither
starts with the terminator character '<' nor starts at column 0 is
appended to the code block verbatim (leading and internal whitespace
preserved, no joining), and blank lines are stored as ordinary lines
rather than ending the paragraph; this also holds for whole sequences of
such lines.  Note that Python's `line[:1] not in ' \t'` is False for the
empty line, so the column-0 test spares blank lines. -/
theorem c8_code_block_verbatim :
    (∀ (b : Block) (ps : List Par) (ls : List String) (line : String),
      b.paragraphs = ps ++ [.codeBlock true ls] →
      pyStartsWithChar line '<' = false →
      (pyTakeOne line = "" ∨ pyTakeOne line = " " ∨ pyTakeOne line = "\t") →
      b.addLine line = { b with paragraphs := ps ++ [.codeBlock true (ls ++ [line])] })
    ∧ (∀ (b : Block) (ps : List Par) (ls : List String) (lines : List String),
      b.paragraphs = ps ++ [.codeBlock true ls] →
      (∀ line ∈ lines, pyStartsWithChar line '<' = false ∧
        (pyTakeOne line = "" ∨ pyTakeOne line = " " ∨ pyTakeOne line = "\t")) →
      b.addLines lines = { b with paragraphs := ps ++ [.codeBlock true (ls ++ lines)] }) := by
  have step : ∀ (b : Block) (ps : List Par) (ls : List String) (line : String),
      b.paragraphs = ps ++ [.codeBlock true ls] →
      pyStartsWithChar line '<' = false →
      (pyTakeOne line = "" ∨ pyTakeOne line = " " ∨ pyTakeOne line = "\t") →
      b.addLine line = { b with paragraphs := ps ++ [.codeBlock true (ls ++ [line])] } := by
    intro b ps ls line hps hlt hcol
    unfold Block.addLine
    rw [hps, parsIsType_append]
    simp only [Par.isOpenP, Par.isCodeInst, Bool.and_self, if_true]
    rw [hlt]
    simp only [Bool.false_eq_true, if_false]
    rw [if_neg (fun hno => hno hcol), parsAddLine_append_code]
  refine ⟨step, ?_⟩
  intro b ps ls lines
  induction lines generalizing b ls with
  | nil =>
    intro hps _
    simp only [Block.addLines, List.foldl_nil, List.append_nil]
    cases b
    simp only at hps
    rw [hps]
  | cons l rest ih =>
    intro hps hall
    have h1 := step b ps ls l hps (hall l (List.mem_cons_self _ _)).1
      (hall l (List.mem_cons_self _ _)).2
    have h2 := ih { b with paragraphs := ps ++ [.codeBlock true (ls ++ [l])] }
      (ls ++ [l]) rfl (fun x hx => hall x (List.mem_cons_of_mem _ hx))
    simp only [Block.addLines, List.foldl_cons] at h2 ⊢
    rw [h1, h2]
    simp

/-- Witness for the C8 theorem: a blank line and an indented line
are appended verbatim to an open code block. -/
theorem c8_witness :
    (Block.addLine { paragraphs := [.codeBlock true []] } "  echo 1")
      = { paragraphs := [.codeBlock true ["  echo 1"]] }
    ∧ (Block.addLines { paragraphs := [.codeBlock true []] } ["", "\tx"])
      = { paragraphs := [.codeBlock true ["", "\tx"]] } := by
  constructor
  · exact c8_code_block_verbatim.1 { paragraphs := [.codeBlock true []] }
      [] [] "  echo 1" rfl (by decide) (by decide)
  · exact c8_code_block_verbatim.2 { paragraphs := [.codeBlock true []] }
      [] [] ["", "\tx"] rfl (by decide)

end Vimdoc

namespace Vimdoc

/-- Block.SetHeader (block.py lines 149-154).  When a header is already
present the source executes `raise error.MultipleErrors`; the module
vimdoc.error defines no attribute MultipleErrors (the defined class is
MultipleHeaders, which is never raised anywhere), so evaluating
`error.MultipleErrors` raises AttributeError before any vimdoc error can
be constructed.  Otherwise the directive is stored and the open
paragraph is closed. -/
def Block.setHeader (b : Block) (d : HeaderDir) : Except VErr Block :=
  if b.header.isSome then
    .error (.attributeError "MultipleErrors")
  else
    .ok { b with header := some d, paragraphs := parsClose b.paragraphs }

/-- C7 (code bug evidence): the first SetHeader call succeeds and stores
the directive; a second SetHeader call fails, but with Python's
AttributeError for the nonexistent attribute error.MultipleErrors, not
with the multiple-headers parse error that error.py defines for this
purpose.  In particular the result is not the MultipleHeaders error the
claim describes. -/
theorem c7_set_header_bug :
    ∀ (b : Block) (d1 d2 : HeaderDir), b.header = none →
      ∃ b1, b.setHeader d1 = .ok b1 ∧ b1.header = some d1 ∧
        b1.setHeader d2 = .error (.attributeError "MultipleErrors") ∧
        b1.setHeader d2 ≠ .error .multipleHeaders := by
  intro b d1 d2 hnone
  refine ⟨{ b with header := some d1, paragraphs := parsClose b.paragraphs },
    ?_, rfl, ?_, ?_⟩
  · unfold Block.setHeader
    rw [hnone]
    rfl
  · rfl
  · intro h
    simp [Block.setHeader] at h

/-- Witness for the C7 theorem at a concrete block and directive. -/
theorem c7_witness :
    ∃ b1, Block.setHeader {} { kind := .usage, usage := "", reqs := [], opts := [] }
        = .ok b1
      ∧ b1.header = some { kind := .usage, usage := "", reqs := [], opts := [] }
      ∧ b1.setHeader { kind := .usage, usage := "", reqs := [], opts := [] }
          = .error (.attributeError "MultipleErrors")
      ∧ b1.setHeader { kind := .usage, usage := "", reqs := [], opts := [] }
          ≠ .error .multipleHeaders :=
  c7_set_header_bug {} _ _ rfl

end Vimdoc

namespace Vimdoc

/-! Usage-line generation (docline.py Header.GenerateUsage and FillOut)
and the string substitutions from regex.py that it uses.  All scanners
are fuel-driven with fuel initialised to the string length; every step
consumes at least one character, so the fuel never runs out. -/

/-- An identifier with an optional trailing "..."
([a-zA-Z_][a-zA-Z0-9_]*(?:\.\.\.)?). -/
def matchIdentDots : List Char → Option (String × List Char)
  | c :: rest =>
    if isIdentStart c then
      let w := rest.takeWhile isWordChar
      let r := rest.dropWhile isWordChar
      match r with
      | '.' :: '.' :: '.' :: r2 => some ((c :: w).asString ++ "...", r2)
      | _ => some ((c :: w).asString, r)
    else none
  | [] => none

/-- A brace/bracket token with an optional identifier inside
(the first two alternatives of regex.usage_arg); the identifier may
carry a trailing "..." which must be followed by the closer, with
regex backtracking dropping the dots when the closer does not follow. -/
def matchBraceTok (openC closeC : Char) (cs : List Char) : Option (String × List Char) :=
  match cs with
  | c :: d :: rest =>
    if c = openC then
      if d = closeC then
        some (([openC, closeC]).asString, rest)
      else if isIdentStart d then
        let w := rest.takeWhile isWordChar
        let r := rest.dropWhile isWordChar
        match r with
        | '.' :: '.' :: '.' :: e :: r2 =>
          if e = closeC then
            some ((openC :: d :: (w ++ ['.', '.', '.', closeC])).asString, r2)
          else none
        | e :: r2 =>
          if e = closeC then some ((openC :: d :: (w ++ [closeC])).asString, r2)
          else none
        | [] => none
      else none
    else none
  | _ => none

/-- One attempted match of regex.usage_arg at the current position,
trying the alternatives in the pattern's order:
braces, brackets, the literal joint hole, a bare identifier. -/
def usageArgMatch (cs : List Char) : Option (String × List Char) :=
  match matchBraceTok '\x7b' '\x7d' cs with
  | some r => some r
  | none =>
    match matchBraceTok '[' ']' cs with
    | some r => some r
    | none =>
      match cs with
      | '\x7b' :: ']' :: rest => some ("\x7b]", rest)
      | _ => matchIdentDots cs

def usageArgGo : Nat → List Char → List String
  | 0, _ => []
  | _ + 1, [] => []
  | fuel + 1, c :: rest =>
    match usageArgMatch (c :: rest) with
    | some (tok, r) => tok :: usageArgGo fuel r
    | none => usageArgGo fuel rest

/-- regex.usage_arg.findall. -/
def usageArgFindAll (s : String) : List String :=
  usageArgGo s.data.length s.data

def replaceLitGo (pat rep : List Char) : Nat → List Char → List Char
  | 0, cs => cs
  | _ + 1, [] => []
  | fuel + 1, c :: rest =>
    if pat ≠ [] ∧ (c :: rest).take pat.length = pat then
      rep ++ replaceLitGo pat rep fuel ((c :: rest).drop pat.length)
    else
      c :: replaceLitGo pat rep fuel rest

/-- re.sub with a literal pattern and literal replacement
(regex.name_hole, regex.arg_hole). -/
def replaceLiteral (pat rep s : String) : String :=
  (replaceLitGo pat.data rep.data s.data.length s.data).asString

def replaceDelimGo (pat rep : List Char) : Nat → Option Char → List Char → List Char
  | 0, _, cs => cs
  | _ + 1, _, [] => []
  | fuel + 1, prev, c :: rest =>
    if (prev.elim true Char.isWhitespace) ∧ pat ≠ []
        ∧ (c :: rest).take pat.length = pat
        ∧ ¬(((c :: rest).drop pat.length).head?.elim false isWordChar) then
      rep ++ replaceDelimGo pat rep fuel pat.getLast? ((c :: rest).drop pat.length)
    else
      c :: replaceDelimGo pat rep fuel (some c) rest

/-- _DelimitedRegex(literal).sub(rep, s) (regex.required_hole and
regex.optional_hole): the literal must not be preceded by a
non-whitespace character nor followed by a word character. -/
def replaceDelimited (pat rep s : String) : String :=
  (replaceDelimGo pat.data rep.data s.data.length none s.data).asString

/-- Number of leading ", " repetitions. -/
def commaSpaceUnits : List Char → Nat
  | ',' :: ' ' :: rest => commaSpaceUnits rest + 1
  | _ => 0

def badSepGo : Nat → List Char → List Char
  | 0, cs => cs
  | _ + 1, [] => []
  | fuel + 1, c :: rest =>
    let k := commaSpaceUnits (c :: rest)
    if k ≥ 2 then
      badSepGo fuel ((c :: rest).drop (2 * (k - 1)))
    else if c = ' ' then
      let m := 1 + (rest.takeWhile (· = ' ')).length
      if m ≥ 2 then badSepGo fuel ((c :: rest).drop (m - 1))
      else c :: badSepGo fuel rest
    else
      c :: badSepGo fuel rest

/-- regex.bad_separator.sub('', s): collapse runs of ", " and runs of
spaces, keeping the final one of each run (the pattern is
(?:, )+(?=, ) | +(?= )). -/
def badSeparatorSub (s : String) : String :=
  (badSepGo s.data.length s.data).asString

def escapeGo (openC closeC : Char) : Nat → List Char → List Char
  | 0, cs => cs
  | _ + 1, [] => []
  | fuel + 1, c :: rest =>
    if c = openC then
      match rest with
      | '|' :: r2 =>
        let ps := r2.takeWhile (· = '|')
        let r3 := r2.dropWhile (· = '|')
        match r3 with
        | e :: r4 =>
          if e = closeC then (openC :: ps) ++ (closeC :: escapeGo openC closeC fuel r4)
          else c :: escapeGo openC closeC fuel rest
        | [] => c :: escapeGo openC closeC fuel rest
      | _ => c :: escapeGo openC closeC fuel rest
    else c :: escapeGo openC closeC fuel rest

/-- The hole escape substitutions (regex.namehole_escape etc.):
open-pipe...pipes-close loses one pipe. -/
def escapeSub (openC closeC : Char) (s : String) : String :=
  (escapeGo openC closeC s.data.length s.data).asString

end Vimdoc

namespace Vimdoc

/-- Block.RequiredArgs (block.py lines 202-225).  For a function block
the signature args come from locals['args']; iterating a missing args
key (None) raises TypeError in Python.  The irreconcilable case emits a
non-fatal ArgumentMismatch warning and returns the documented names. -/
def Block.requiredArgs (b : Block) : Except VErr (List String) :=
  if b.type = .typed .FUNCTION then
    match b.args with
    | none => .error .typeErrorNoneNotIterable
    | some args =>
      let sigargs := args.filter (· ≠ "...")
      if b.reqAcc = [] then .ok sigargs
      else if b.reqAcc.all (· ∈ sigargs) then .ok sigargs
      else if b.reqAcc.length = sigargs.length then .ok b.reqAcc
      else .ok b.reqAcc
  else .ok b.reqAcc

/-- Block.OptionalArgs (block.py lines 227-238).  The check whether the
function accepts '...' dereferences locals.get('args'), which raises
TypeError when the key is absent; the claimed-but-unsupported case emits
a non-fatal warning and yields no optional args. -/
def Block.optionalArgs (b : Block) : Except VErr (List String) :=
  if b.type = .typed .FUNCTION ∧ b.optAcc ≠ [] then
    match b.args with
    | none => .error .typeErrorNoneNotIterable
    | some args => if "..." ∉ args then .ok [] else .ok b.optAcc
  else .ok b.optAcc

/-- Block.LocalName (block.py lines 240-246). -/
def Block.localName (b : Block) : Except VErr String :=
  if b.type = .typed .DICTIONARY then
    match b.dict with
    | some d => .ok d
    | none => .error (.keyError "dict")
  else
    match b.name with
    | some n => .ok n
    | none => .error (.keyError "Unnamed block.")

/-- Block.FullName (block.py lines 248-258).  Python evaluates
self.LocalName() eagerly as the .get default in the dict branch; in the
namespace branch locals.get('namespace', '') is '' when the key is
absent, and concatenating a present None raises TypeError. -/
def Block.fullName (b : Block) : Except VErr String :=
  if b.type = .typed .FUNCTION then
    if b.dict.isSome then do
      let ln ← b.localName
      .ok ((b.dict.getD "") ++ "." ++ (b.attr.getD ln))
    else if b.exception.isSome then
      match b.exception with
      | some (some w) =>
        if w = "" then do
          let ln ← b.localName
          .ok ("ERROR(" ++ ln ++ ")")
        else .ok ("ERROR(" ++ w ++ ")")
      | _ => do
        let ln ← b.localName
        .ok ("ERROR(" ++ ln ++ ")")
    else
      match b.nspace with
      | some none => .error .typeErrorNonePlusStr
      | some (some ns) => do
        let ln ← b.localName
        .ok (ns ++ ln)
      | none => do
        let ln ← b.localName
        .ok ln
  else b.localName

/-- Block.TagName (block.py lines 260-271): None for secondary blocks;
functions get () appended except for ERROR() tags; commands get a ':'
prepended. -/
def Block.tagName (b : Block) : Except VErr (Option String) :=
  if b.isSecondary then .ok none
  else if b.type = .typed .FUNCTION ∧ b.exception = none then do
    let fn ← b.fullName
    .ok (some (fn ++ "()"))
  else if b.type = .typed .COMMAND then do
    let fn ← b.fullName
    .ok (some (":" ++ fn))
  else do
    let fn ← b.fullName
    .ok (some fn)

/-- Header.FillOut (docline.py lines 333-355). -/
def HeaderDir.fillOut (h : HeaderDir) (name sep extraReqs extraOpts : String) : String :=
  let extraArgs :=
    if extraReqs ≠ "" ∧ extraOpts ≠ "" then extraReqs ++ sep ++ extraOpts
    else extraReqs ++ extraOpts
  let usage := replaceLiteral "\x7b]" extraArgs h.usage
  let usage := replaceDelimited "\x7b\x7d" extraReqs usage
  let usage := replaceDelimited "[]" extraOpts usage
  let usage := badSeparatorSub usage
  let usage := replaceLiteral "<>" name usage
  let usage := escapeSub '<' '>' usage
  let usage := escapeSub '\x7b' '\x7d' usage
  escapeSub '[' ']' usage

/-- Header.GenerateUsage (docline.py lines 318-331), shared by the
Function and Command headers and by Usage after it rewrites its
template. -/
def HeaderDir.generateUsageBase (h : HeaderDir) (b : Block) : Except VErr String := do
  let isfunc := b.type = .typed .FUNCTION
  let sep := if isfunc then ", " else " "
  let reqs ← b.requiredArgs
  let opts ← b.optionalArgs
  let extraReqs :=
    sep.intercalate ((reqs.filter (· ∉ h.reqs)).map (fun r => "\x7b" ++ r ++ "\x7d"))
  let extraOpts :=
    sep.intercalate ((opts.filter (· ∉ h.opts)).map (fun o => "[" ++ o ++ "]"))
  let name ← b.fullName
  let usage := h.fillOut name sep extraReqs extraOpts
  if b.type = .typed .COMMAND ∧ ¬(pyStartsWithChar usage ':') then
    .ok (":" ++ usage)
  else .ok usage

/-- Usage.GenerateUsage (docline.py lines 372-386) for the usage kind,
Header.GenerateUsage for the function/command kinds.  The else branch of
Usage.GenerateUsage asserts the block is a command. -/
def HeaderDir.generateUsage (h : HeaderDir) (b : Block) : Except VErr String :=
  match h.kind with
  | .usage =>
    let args := (usageArgFindAll h.usage).map (fun arg =>
      if pyTakeOne arg = "[" ∨ pyTakeOne arg = "\x7b" then arg
      else "\x7b" ++ arg ++ "\x7d")
    if b.type = .typed .FUNCTION then
      HeaderDir.generateUsageBase
        { h with usage := "<>(" ++ ", ".intercalate args ++ ")" } b
    else if b.type = .typed .COMMAND then
      HeaderDir.generateUsageBase
        { h with usage := ":" ++ (b.headCmd.getD "<>") ++ " " ++ " ".intercalate args } b
    else .error .assertionError
  | _ => h.generateUsageBase b

/-- The default header synthesized at close, docline Usage('{]'):
usage_args matches the joint hole, and the required/optional findalls on
it are empty. -/
def defaultUsageHeader : HeaderDir :=
  { kind := .usage, usage := "\x7b]",
    reqs := requiredArgFindAll "\x7b]", opts := optionalArgFindAll "\x7b]" }

/-- The tail of Block.Close (block.py lines 198-200): the private
marker check. -/
def Block.closePrivTail (b : Block) : Block × Except VErr Bool :=
  if b.priv.isSome ∧ b.type ≠ .typed .FUNCTION then
    (b, .error (.invalidBlock "Only functions may be marked as private."))
  else (b, .ok true)

/-- Block.Close (block.py lines 176-200).  Returns the mutated block
together with the outcome: ok true models `return self`, ok false models
the early `return` (None) when the block is already closed, and error
models a raise (with the mutations made before the raise kept in the
returned block). -/
def Block.close (b : Block) : Block × Except VErr Bool :=
  if b.closed then (b, .ok false)
  else
    let b := { b with closed := true }
    match
      (if b.type = .untyped ∧ b.dict.isSome then
        match setType b.type (.typed .DICTIONARY) with
        | .ok t => .ok { b with type := t }
        | .error e => .error e
      else .ok b : Except VErr Block) with
    | .error e => (b, .error e)
    | .ok b =>
      if (b.type = .typed .FUNCTION ∨ b.type = .typed .COMMAND)
          ∧ b.exception = none then
        let hdr := b.header.getD defaultUsageHeader
        let b := { b with header := some hdr }
        match hdr.generateUsage b with
        | .ok u => Block.closePrivTail { b with usageText := some u }
        | .error e => (b, .error e)
      else Block.closePrivTail b

end Vimdoc

namespace Vimdoc

theorem closePrivTail_fst (b : Block) : (Block.closePrivTail b).1 = b := by
  unfold Block.closePrivTail
  split <;> rfl

theorem closePrivTail_ok (b : Block) (r : Bool)
    (h : (Block.closePrivTail b).2 = .ok r) : r = true := by
  unfold Block.closePrivTail at h
  split at h
  · simp at h
  · simpa using h.symm

theorem close_of_closed (b : Block) (h : b.closed = true) :
    Block.close b = (b, .ok false) := by
  unfold Block.close
  rw [if_pos h]

theorem close_fst_closed (b : Block) : ((Block.close b).1).closed = true := by
  by_cases hb : b.closed
  · rw [close_of_closed b hb]
    exact hb
  · simp only [Block.close, hb, Bool.false_eq_true, if_false]
    split
    · rfl
    · rename_i b' heq
      have hb' : b'.closed = true := by
        split at heq
        · split at heq
          · simp only [Except.ok.injEq] at heq
            rw [← heq]
          · simp at heq
        · simp only [Except.ok.injEq] at heq
          rw [← heq]
      split
      · split
        · rw [closePrivTail_fst]
          exact hb'
        · exact hb'
      · rw [closePrivTail_fst]
        exact hb'

/-- C9: closing an already-closed block is a no-op: after a first Close
(whatever it did, including a raise, since the closed flag is set before
any check) a second Close leaves every piece of the block's state -
locals, globals, header, usage, paragraphs, argument accumulators -
exactly as the first Close left them, raises no error, and returns
None. -/
theorem c9_close_idempotent (b : Block) :
    Block.close ((Block.close b).1) = ((Block.close b).1, .ok false) :=
  close_of_closed _ (close_fst_closed b)

/-- C10 counterexample: a SECTION block carrying a private marker.  Its
first Close raises InvalidBlock instead of returning the block itself,
so the claim that the first call to Close returns the block for every
block is false. -/
theorem c10_counterexample :
    (Block.close { type := .typed .SECTION, priv := some true }).2
      = .error (.invalidBlock "Only functions may be marked as private.")
    ∧ ∀ r : Bool,
      (Block.close { type := .typed .SECTION, priv := some true }).2 ≠ .ok r := by
  constructor
  · rfl
  · intro r h
    have h2 : (Except.error (VErr.invalidBlock
        "Only functions may be marked as private.") : Except VErr Bool)
        = .ok r := by
      rw [← h]
      rfl
    exact Except.noConfusion h2

/-- C10 amended: whenever the first Close completes without raising it
returns the block itself (never None), and every Close of an
already-closed block returns None without error; so the return value is
not the same across repeated calls, but a first Close may also raise
instead of returning the block. -/
theorem c10_close_return_value :
    (∀ (b : Block) (r : Bool), b.closed = false →
      (Block.close b).2 = .ok r → r = true)
    ∧ (∀ b : Block, b.closed = true → Block.close b = (b, .ok false)) := by
  constructor
  · intro b r hb h
    simp only [Block.close, hb, Bool.false_eq_true, if_false] at h
    split at h
    · simp at h
    · split at h
      · split at h
        · exact closePrivTail_ok _ _ h
        · simp at h
      · exact closePrivTail_ok _ _ h
  · exact fun b h => close_of_closed b h

/-- Witness for the C10 theorem at concrete blocks. -/
theorem c10_witness :
    (true : Bool) = true
    ∧ Block.close { closed := true } = ({ closed := true }, .ok false) :=
  ⟨c10_close_return_value.1 {} true rfl rfl,
   c10_close_return_value.2 { closed := true } rfl⟩

end Vimdoc

namespace Vimdoc

/-! Association-list operations modelling Python dict / OrderedDict with
unique keys: assigning to an existing key replaces in place, assigning a
fresh key appends, pop removes. -/

def alLookup [DecidableEq κ] (k : κ) : List (κ × ν) → Option ν
  | [] => none
  | (k', v) :: rest => if k' = k then some v else alLookup k rest

def alSet [DecidableEq κ] (k : κ) (v : ν) : List (κ × ν) → List (κ × ν)
  | [] => [(k, v)]
  | (k', v') :: rest => if k' = k then (k, v) :: rest else (k', v') :: alSet k v rest

def alRemove [DecidableEq κ] (k : κ) : List (κ × ν) → List (κ × ν)
  | [] => []
  | (k', v') :: rest => if k' = k then rest else (k', v') :: alRemove k rest

/-- dict.setdefault(k, []).append(v). -/
def alAppend [DecidableEq κ] (k : κ) (v : ν) (d : List (κ × List ν)) : List (κ × List ν) :=
  match alLookup k d with
  | some vs => alSet k (vs ++ [v]) d
  | none => d ++ [(k, [v])]

theorem alLookup_alSet_self [DecidableEq κ] (k : κ) (v : ν) (d : List (κ × ν)) :
    alLookup k (alSet k v d) = some v := by
  induction d with
  | nil => simp [alSet, alLookup]
  | cons kv rest ih =>
    by_cases h : kv.1 = k
    · simp [alSet, h, alLookup]
    · simp [alSet, h, alLookup, ih]

/-- Lexicographic code-point comparison of strings (Python's str <),
implemented over the character lists so it reduces in the kernel. -/
def pyStrLt : List Char → List Char → Bool
  | [], [] => false
  | [], _ :: _ => true
  | _ :: _, [] => false
  | a :: as, b :: bs => if a = b then pyStrLt as bs else a.toNat < b.toNat

/-- Python's str <=, as the negation of the reverse strict comparison. -/
def pyStrLe (a b : String) : Bool := !(pyStrLt b.data a.data)

/-- Python sorted(), modelled as a stable insertion sort: each element is
inserted after existing elements that compare less-or-equal, so equal
keys keep their original relative order, as CPython's stable sort
guarantees. -/
def stableInsert (le : α → α → Bool) (x : α) : List α → List α
  | [] => [x]
  | y :: rest => if le y x then y :: stableInsert le x rest else x :: y :: rest

def stableSort (le : α → α → Bool) (l : List α) : List α :=
  l.foldl (fun acc x => stableInsert le x acc) []

/-- Shared plugin state (module.py VimPlugin).  The per-type collections
are kept as an association list; name handling and addon-info defaults
live in the out-of-scope crawler. -/
structure PluginS where
  collections : List (VType × List Block) := []
  tagline : Option String := none
  author : Option String := none
  stylization : Option String := none
  library : Option Bool := none
deriving DecidableEq, Repr

/-- VimPlugin.GetCollectionType (module.py lines 335-352).  Truthiness:
locals.get('deprecated') is a nonempty reason string when present,
locals.get('private') defaults to None (falsy) in library mode and to
True in non-library mode. -/
def PluginS.getCollectionType (p : PluginS) (b : Block) : Option VType :=
  match b.type with
  | .typed .FUNCTION =>
    if b.deprecated.isSome then none
    else if p.library.getD false = true ∧ b.priv.getD false = true then none
    else if ¬(p.library.getD false = true) ∧ b.priv.getD true = true then none
    else if b.exception.isSome then some .EXCEPTION
    else some .FUNCTION
  | .typed t => some t
  | _ => none

/-- VimPlugin.ConsumeMetadata (module.py lines 294-309); its callers
guarantee the asserted SECTION/BACKMATTER type. -/
def PluginS.consumeMetadata (p : PluginS) (b : Block) : Except VErr PluginS := do
  if b.gAuthor.isSome then
    .error (.invalidBlock
      "Invalid directive @author. Specify author field in addon-info.json instead.")
  else if b.gTagline.isSome then
    .error (.invalidBlock
      "Invalid directive @tagline. Specify description field in addon-info.json instead.")
  else do
    let p ← (match b.gStylization with
      | some v =>
        if p.stylization.isSome then .error (.redundantControl "stylization")
        else .ok { p with stylization := some v }
      | none => .ok p : Except VErr PluginS)
    match b.gLibrary with
    | some v =>
      if p.library.isSome then .error (.redundantControl "library")
      else .ok { p with library := some v }
    | none => .ok p

/-- VimPlugin.Merge (module.py lines 354-361). -/
def PluginS.merge (p : PluginS) (b : Block) : Except VErr PluginS :=
  if b.type = .typed .SECTION ∨ b.type = .typed .BACKMATTER then
    p.consumeMetadata b
  else
    match p.getCollectionType b with
    | some ct => .ok { p with collections := alAppend ct b p.collections }
    | none => .ok p

/-- Block.Local(namespace=...) as called from Module.Merge: Local first
applies SetType(True) (which never fails), then rejects an inconsistent
re-assignment of the namespace key. -/
def Block.localNamespaceSet (b : Block) (v : Option String) : Except VErr Block :=
  let t := match setType b.type .untyped with
    | .ok t => t
    | .error _ => b.type
  let b := { b with type := t }
  match b.nspace with
  | some w =>
    if w ≠ v then .error (.inconsistentControl "namespace")
    else .ok { b with nspace := some v }
  | none => .ok { b with nspace := some v }

/-- A vimdoc module (module.py Module): ordered section map, backmatter
map, per-type collections, and the explicit order directive once
merged. -/
structure ModuleS where
  sections : List (Option String × Block) := []
  backmatters : List (Option String × Block) := []
  collections : List (VType × List Block) := []
  order : Option (List String) := none
deriving DecidableEq, Repr

/-- Module.Merge (module.py lines 39-78). -/
def ModuleS.merge (m : ModuleS) (p : PluginS) (b : Block) (ns : Option String := none) :
    Except VErr (ModuleS × PluginS) := do
  let typ := b.type
  -- This block doesn't want to be spoken to.
  if typ = .unset then .ok (m, p)
  -- If the type still hasn't been set, it never will be.
  else if typ = .untyped then .error .ambiguousBlock
  else do
    let b ← b.localNamespaceSet ns
    -- Consume module-level metadata.
    let m ← (match b.gOrder with
      | some o =>
        if m.order.isSome then .error (.redundantControl "order")
        else .ok { m with order := some o }
      | none => .ok m : Except VErr ModuleS)
    let p ← p.merge b
    let blockId := b.id
    if typ = .typed .SECTION then
      match alLookup blockId m.sections with
      | none => .ok ({ m with sections := alSet blockId b m.sections }, p)
      | some existing =>
        if existing.isDefault then
          .ok ({ m with sections := alSet blockId b m.sections }, p)
        else if ¬b.isDefault then .error (.duplicateSection blockId)
        else .ok (m, p)
    else if typ = .typed .BACKMATTER then
      match alLookup blockId m.backmatters with
      | none => .ok ({ m with backmatters := alSet blockId b m.backmatters }, p)
      | some existing =>
        if existing.isDefault then
          .ok ({ m with backmatters := alSet blockId b m.backmatters }, p)
        else if ¬b.isDefault then .error (.duplicateBackmatter blockId)
        else .ok (m, p)
    else
      match p.getCollectionType b with
      | some ct => .ok ({ m with collections := alAppend ct b m.collections }, p)
      | none => .ok (m, p)

end Vimdoc

namespace Vimdoc

/-- Block.TagName as used by GetCollection's default filter; a KeyError
from FullName would abort GetCollection in Python, a case no caller of
the embedding exercises (modelled as no tag). -/
def Block.tagNameD (b : Block) : Option String :=
  match b.tagName with
  | .ok t => t
  | .error _ => none

/-- Sort key locals.get('namespace', '') for functions; a present None
value would make Python's sorted raise, a case not exercised here. -/
def Block.nsKey (b : Block) : String := (b.nspace.getD (some "")).getD ""

/-- Sort key for dictionaries (Block.__lt__ compares FullName). -/
def Block.fnKey (b : Block) : String :=
  match b.fullName with
  | .ok n => n
  | .error _ => ""

/-- Module.GetCollection (module.py lines 83-109): sort functions by
namespace (stable), dictionaries by name, then drop default blocks whose
tag is also provided by a non-default block. -/
def ModuleS.getCollection (m : ModuleS) (typ : VType) : List Block :=
  let collection := (alLookup typ m.collections).getD []
  let collection :=
    if typ = .FUNCTION then stableSort (fun a b => pyStrLe a.nsKey b.nsKey) collection
    else if typ = .DICTIONARY then stableSort (fun a b => pyStrLe a.fnKey b.fnKey) collection
    else collection
  let nonDefaultNames := (collection.filter (fun x => ¬x.isDefault)).map Block.tagNameD
  collection.filter (fun x => ¬x.isDefault ∨ x.tagNameD ∉ nonDefaultNames)

/-- Module._AddMaktabaFlagHelp (module.py lines 111-122). -/
def ModuleS.addMaktabaFlagHelp (m : ModuleS) (p : PluginS) :
    Except VErr (ModuleS × PluginS) :=
  if m.getCollection .FLAG ≠ [] then
    let block : Block :=
      { type := .typed .SECTION, isDefault := true,
        id := some "config", name := some "Configuration" }
    let block := block.addLine
      ("This plugin uses maktaba flags for configuration. Install Glaive"
        ++ " (https://github.com/google/glaive) and use the @command(Glaive)"
        ++ " command to configure them.")
    m.merge p block
  else .ok (m, p)

/-- The default sections table in Module.Close (module.py lines 133-140). -/
def defaultSectionTable : List (VType × String × String) :=
  [(.FUNCTION, "functions", "Functions"),
   (.EXCEPTION, "exceptions", "Exceptions"),
   (.COMMAND, "commands", "Commands"),
   (.DICTIONARY, "dicts", "Dictionaries"),
   (.FLAG, "config", "Configuration"),
   (.SETTING, "config", "Configuration")]

/-- One iteration of the default-section loop (module.py lines 142-150):
the FLAG row first injects the maktaba help section, then any collection
with members and no owning section gets a fresh (non-default) section
block merged in. -/
def closeDefaultsStep (mp : ModuleS × PluginS) (row : VType × String × String) :
    Except VErr (ModuleS × PluginS) := do
  let (m, p) ← (if row.1 = .FLAG then mp.1.addMaktabaFlagHelp mp.2
    else .ok mp : Except VErr (ModuleS × PluginS))
  if m.getCollection row.1 ≠ [] ∧ (some row.2.1) ∉ m.sections.map Prod.fst then
    let block : Block :=
      { type := .typed .SECTION, id := some row.2.1, name := some row.2.2 }
    m.merge p block
  else .ok (m, p)

def closeDefaults (m : ModuleS) (p : PluginS) : Except VErr (ModuleS × PluginS) :=
  defaultSectionTable.foldlM closeDefaultsStep (m, p)

/-- The backmatter existence check (module.py lines 156-158). -/
def checkBackmatters (secKeys : List (Option String)) :
    List (Option String × Block) → Except VErr Unit
  | [] => .ok ()
  | (k, _) :: rest =>
    if k ∉ secKeys then .error (.noSuchSection k)
    else checkBackmatters secKeys rest

/-- The child-collection loop (module.py lines 167-181): walk the section
map in order; a section with a truthy parent_id whose parent key is
missing from the (full, pre-deletion) map is a fatal error naming the
section (KeyError if it has no name) and the missing parent; otherwise
the section is recorded as a child of its parent and marked for
deletion. -/
def collectChildren (secKeys : List (Option String)) :
    List (Option String × Block) → List (String × List Block) → List (Option String) →
    Except VErr (List (String × List Block) × List (Option String))
  | [], cmap, dels => .ok (cmap, dels)
  | (key, sec) :: rest, cmap, dels =>
    match sec.parentId with
    | some pid =>
      if pid = "" then collectChildren secKeys rest cmap dels
      else if (some pid) ∉ secKeys then
        match sec.name with
        | some n => .error (.noSuchParentSection n pid)
        | none => .error (.keyError "name")
      else collectChildren secKeys rest (alAppend pid sec cmap) (dels ++ [key])
    | none => collectChildren secKeys rest cmap dels

/-- _AddChildSections (module.py lines 196-203): set the level
(setdefault 0) of the just-inserted section, then insert its children in
name order with level one deeper, recursively.  Children are looked up
by the parent's id in the side map built by collectChildren; the fuel
bounds the recursion depth (child chains are finite because every child
was removed from the top-level map, so the fuel of one more than the
number of parents never runs out). -/
def addChildSections (cmap : List (String × List Block)) :
    Nat → List (Option String × Block) → Option String → Block →
    List (Option String × Block)
  | 0, secs, _, _ => secs
  | fuel + 1, secs, key, sec =>
    let lvl := sec.level.getD 0
    let sec := { sec with level := some lvl }
    let secs := alSet key sec secs
    match sec.id.bind (fun s => alLookup s cmap) with
    | some children =>
      (stableSort (fun a b => pyStrLe (a.name.getD "") (b.name.getD "")) children).foldl
        (fun secs child =>
          let child := { child with level := some (lvl + 1) }
          let secs := alSet child.id child secs
          addChildSections cmap fuel secs child.id child) secs
    | none => secs

/-- The reinsertion loop (module.py lines 205-213): walk the computed
order; each key still present is popped, checked for a truthy parent_id
(fatal: ordered child section), moved to the end and expanded with its
children. -/
def reinsertLoop (cmap : List (String × List Block)) (order : List String) :
    List String → List (Option String × Block) →
    Except VErr (List (Option String × Block))
  | [], secs => .ok secs
  | key :: rest, secs =>
    match alLookup (some key) secs with
    | some sec =>
      let secs := alRemove (some key) secs
      if (match sec.parentId with | some pd => pd != "" | none => false) then
        .error (.orderedChildSections sec.id order)
      else
        let secs := secs ++ [(some key, sec)]
        let secs := addChildSections cmap (cmap.length + 1) secs (some key) sec
        reinsertLoop cmap order rest secs
    | none => reinsertLoop cmap order rest secs

/-- Module.Close (module.py lines 124-213). -/
def ModuleS.close (m : ModuleS) (p : PluginS) : Except VErr (ModuleS × PluginS) := do
  let (m, p) ← closeDefaults m p
  let _ ← checkBackmatters (m.sections.map Prod.fst) m.backmatters
  let order := getSectionOrder m.order (m.sections.map Prod.fst)
  let m := { m with order := some order }
  let (cmap, dels) ← collectChildren (m.sections.map Prod.fst) m.sections [] []
  let m := { m with sections := dels.foldl (fun d k => alRemove k d) m.sections }
  let known := m.sections.map Prod.fst
  let neglected := stableSort (fun a b => pyStrLe (a.getD "") (b.getD ""))
    (known.filter (fun k => k ∉ order.map some))
  if neglected ≠ [] then .error (.neglectedSections neglected order)
  else do
    let secs ← reinsertLoop cmap order order m.sections
    .ok ({ m with sections := secs }, p)

end Vimdoc

namespace Vimdoc

/-- A user-authored section block as produced by the @section directive
plus Local(name=..., id=...). -/
def sectionBlock (name id : String) : Block :=
  { type := .typed .SECTION, name := some name, id := some id }

/-- A child section block: a section with a parentsection directive. -/
def childSectionBlock (name id parentId : String) : Block :=
  { type := .typed .SECTION, name := some name, id := some id,
    parentId := some parentId }

/-- Merging a stream of blocks into a fresh module of a fresh plugin, as
Modules() does for each module. -/
def mergeBlocks (blocks : List Block) : Except VErr (ModuleS × PluginS) :=
  blocks.foldlM (fun mp b => mp.1.merge mp.2 b) (({} : ModuleS), ({} : PluginS))

/-- Merge a stream of blocks, close the module, and report the final
section-map keys, i.e. the emitted section order. -/
def moduleSectionIds (blocks : List Block) : Except VErr (List (Option String)) := do
  let (m, p) ← mergeBlocks blocks
  let (m, _) ← m.close p
  .ok (m.sections.map Prod.fst)

def c2IntroBlock : Block :=
  { sectionBlock "Introduction" "intro" with
    gOrder := some ["commands", "about", "intro"] }

def c2CommandsBlock : Block := sectionBlock "Commands" "commands"

def c2AboutBlock : Block := sectionBlock "About" "about"

set_option maxHeartbeats 2000000 in
/-- C2: with explicit order [commands, about, intro], merging the three
section blocks in any of the six orders always produces the final
section order [commands, about, intro]: the order directive alone fixes
the relative order of explicitly named ids, independent of merge
order. -/
theorem c2_order_directive_overrides :
    ∀ l : List Block, l.Perm [c2IntroBlock, c2CommandsBlock, c2AboutBlock] →
      moduleSectionIds l = .ok [some "commands", some "about", some "intro"] := by
  intro l hp
  have hnd : l.Nodup := hp.nodup_iff.2 (by decide)
  have hlen : l.length = 3 := hp.length_eq
  rcases l with _ | ⟨x, l⟩
  · simp at hlen
  rcases l with _ | ⟨y, l⟩
  · simp at hlen
  rcases l with _ | ⟨z, l⟩
  · simp at hlen
  rcases l with _ | ⟨w, l⟩
  case cons.cons.cons.cons => simp at hlen
  have hx : x ∈ [c2IntroBlock, c2CommandsBlock, c2AboutBlock] :=
    hp.mem_iff.1 (List.mem_cons_self _ _)
  have hy : y ∈ [c2IntroBlock, c2CommandsBlock, c2AboutBlock] :=
    hp.mem_iff.1 (by simp)
  have hz : z ∈ [c2IntroBlock, c2CommandsBlock, c2AboutBlock] :=
    hp.mem_iff.1 (by simp)
  simp only [List.mem_cons, List.not_mem_nil, or_false] at hx hy hz
  rcases hx with rfl | rfl | rfl <;> rcases hy with rfl | rfl | rfl <;>
      rcases hz with rfl | rfl | rfl <;>
    first
      | rfl
      | exact absurd hnd (by decide)

/-- Witness for the C2 theorem at a concrete merge order. -/
theorem c2_witness :
    moduleSectionIds [c2CommandsBlock, c2AboutBlock, c2IntroBlock]
      = .ok [some "commands", some "about", some "intro"] :=
  c2_order_directive_overrides [c2CommandsBlock, c2AboutBlock, c2IntroBlock]
    (by decide)

end Vimdoc

namespace Vimdoc

/-- A section block that carries no module-level metadata (no order,
author, tagline, stylization or library directive) and no namespace key
(or one already set to None), i.e. the state of a block produced by the
@section directive machinery alone. -/
def Block.plainSectionBlock (b : Block) : Prop :=
  b.type = .typed .SECTION ∧ b.gOrder = none ∧ b.gAuthor = none ∧ b.gTagline = none
  ∧ b.gStylization = none ∧ b.gLibrary = none
  ∧ (b.nspace = none ∨ b.nspace = some none)

theorem localNamespaceSet_plain (b : Block) (ht : b.type = .typed .SECTION)
    (hns : b.nspace = none ∨ b.nspace = some none) :
    b.localNamespaceSet none = .ok { b with nspace := some none } := by
  rcases hns with h | h <;> (cases b; simp_all [Block.localNamespaceSet, setType])

/-- What Module.Merge does with a plain section block: store it under its
id if the id is fresh or held by a default, fail with DuplicateSection if
the block and the holder are both explicit, and silently drop a default
when an explicit block already holds the id. -/
theorem merge_plain_section (m : ModuleS) (p : PluginS) (b : Block)
    (hb : b.plainSectionBlock) :
    m.merge p b = (match alLookup b.id m.sections with
      | none =>
        .ok ({ m with sections := alSet b.id { b with nspace := some none } m.sections }, p)
      | some existing =>
        if existing.isDefault then
          .ok ({ m with sections := alSet b.id { b with nspace := some none } m.sections }, p)
        else if ¬b.isDefault then .error (.duplicateSection b.id)
        else .ok (m, p)) := by
  obtain ⟨ht, hor, hau, hta, hsty, hlib, hns⟩ := hb
  unfold ModuleS.merge
  rw [ht]
  simp only [show (TypeState.typed VType.SECTION = TypeState.unset) = False by simp,
    show (TypeState.typed VType.SECTION = TypeState.untyped) = False by simp,
    if_false]
  rw [localNamespaceSet_plain b ht hns]
  simp only [bind, Except.bind, hor, hau, hta, hsty, hlib, ht, PluginS.merge,
    PluginS.consumeMetadata, Option.isSome, if_true, Bool.false_eq_true, if_false]
  simp [hau, hta, hsty, hlib]

/-- C3: merging two explicit section blocks with the same id fails on the
second merge with a duplicate-section error naming that id; merging a
default and an explicit section block with the same id succeeds in
either order and the module keeps the explicit block (up to the
namespace key that Merge itself writes). -/
theorem c3_duplicate_and_default_sections :
    (∀ (m : ModuleS) (p : PluginS) (b1 b2 : Block),
      b1.plainSectionBlock → b2.plainSectionBlock → b1.id = b2.id →
      b1.isDefault = false → b2.isDefault = false →
      alLookup b1.id m.sections = none →
      ∃ m1, m.merge p b1 = .ok (m1, p)
        ∧ m1.merge p b2 = .error (.duplicateSection b2.id))
    ∧ (∀ (m : ModuleS) (p : PluginS) (d e : Block),
      d.plainSectionBlock → e.plainSectionBlock → d.id = e.id →
      d.isDefault = true → e.isDefault = false →
      alLookup d.id m.sections = none →
      (∃ m1 m2, m.merge p d = .ok (m1, p) ∧ m1.merge p e = .ok (m2, p)
        ∧ alLookup e.id m2.sections = some { e with nspace := some none })
      ∧ (∃ m1 m2, m.merge p e = .ok (m1, p) ∧ m1.merge p d = .ok (m2, p)
        ∧ alLookup e.id m2.sections = some { e with nspace := some none })) := by
  constructor
  · intro m p b1 b2 hb1 hb2 hid hd1 hd2 hlk
    refine ⟨{ m with sections := alSet b1.id { b1 with nspace := some none } m.sections }, ?_, ?_⟩
    · rw [merge_plain_section m p b1 hb1, hlk]
    · rw [merge_plain_section _ p b2 hb2, ← hid]
      have hfound := alLookup_alSet_self b1.id
        ({ b1 with nspace := some none }) m.sections
      rw [hfound]
      simp [hd1, hd2]
  · intro m p d e hd he hid hdd hde hlk
    constructor
    · refine ⟨{ m with sections := alSet d.id { d with nspace := some none } m.sections }, { m with sections := alSet e.id { e with nspace := some none } (alSet d.id { d with nspace := some none } m.sections) }, ?_, ?_, ?_⟩
      · rw [merge_plain_section m p d hd, hlk]
      · rw [merge_plain_section _ p e he, ← hid]
        have hfound := alLookup_alSet_self d.id
          ({ d with nspace := some none }) m.sections
        rw [hfound]
        simp [hdd, hid]
      · exact alLookup_alSet_self e.id ({ e with nspace := some none }) _
    · refine ⟨{ m with sections := alSet e.id { e with nspace := some none } m.sections }, { m with sections := alSet e.id { e with nspace := some none } m.sections }, ?_, ?_, ?_⟩
      · rw [hid] at hlk
        rw [merge_plain_section m p e he, hlk]
      · rw [merge_plain_section _ p d hd, hid]
        have hfound := alLookup_alSet_self e.id
          ({ e with nspace := some none }) m.sections
        rw [hfound]
        simp [hdd, hde]
      · exact alLookup_alSet_self e.id ({ e with nspace := some none }) m.sections

/-- Witness for the C3 theorem at concrete blocks. -/
theorem c3_witness :
    (∃ m1, ModuleS.merge {} {} (sectionBlock "Introduction" "intro") = .ok (m1, {})
      ∧ m1.merge {} (sectionBlock "Intro" "intro")
        = .error (.duplicateSection (some "intro")))
    ∧ (∃ m1 m2,
        ModuleS.merge {} {} { sectionBlock "Functions" "functions" with isDefault := true }
          = .ok (m1, {})
        ∧ m1.merge {} (sectionBlock "My Functions" "functions") = .ok (m2, {})
        ∧ alLookup (some "functions") m2.sections
          = some { sectionBlock "My Functions" "functions" with nspace := some none }) := by
  constructor
  · exact c3_duplicate_and_default_sections.1 {} {}
      (sectionBlock "Introduction" "intro") (sectionBlock "Intro" "intro")
      (by simp [Block.plainSectionBlock, sectionBlock])
      (by simp [Block.plainSectionBlock, sectionBlock]) rfl rfl rfl rfl
  · exact (c3_duplicate_and_default_sections.2 {} {}
      { sectionBlock "Functions" "functions" with isDefault := true }
      (sectionBlock "My Functions" "functions")
      (by simp [Block.plainSectionBlock, sectionBlock])
      (by simp [Block.plainSectionBlock, sectionBlock]) rfl rfl rfl rfl).1

end Vimdoc

namespace Vimdoc

theorem perm_pair_cases {α} {a b : α} {l : List α} (hab : a ≠ b) (h : l.Perm [a, b]) :
    l = [a, b] ∨ l = [b, a] := by
  have hnd : l.Nodup := h.nodup_iff.2 (by simp [hab])
  have hlen := h.length_eq
  rcases l with _ | ⟨x, l⟩
  · simp at hlen
  rcases l with _ | ⟨y, l⟩
  · simp at hlen
  rcases l with _ | ⟨z, l⟩
  case cons.cons.cons => simp at hlen
  have hx : x ∈ [a, b] := h.mem_iff.1 (List.mem_cons_self _ _)
  have hy : y ∈ [a, b] := h.mem_iff.1 (by simp)
  simp only [List.mem_cons, List.not_mem_nil, or_false] at hx hy
  simp only [List.nodup_cons, List.mem_singleton, List.not_mem_nil,
    not_false_iff, and_true, List.nodup_nil] at hnd
  rcases hx with rfl | rfl <;> rcases hy with rfl | rfl
  · exact absurd rfl hnd
  · exact Or.inl rfl
  · exact Or.inr rfl
  · exact absurd rfl hnd

def c4ParentAfterChildOrder : Block :=
  { sectionBlock "Section 1" "first" with gOrder := some ["second", "first"] }

def c4ParentFirstOrder : Block :=
  { sectionBlock "Section 1" "first" with gOrder := some ["first", "second"] }

def c4ChildBlock : Block := childSectionBlock "Section 2" "second" "first"

/-- C4 counterexample: the module merged from the order directive
[second, first] and the two sections first (top-level) and second
(child of first) has the child section second explicitly ordered, yet
closing succeeds - with the order [first, second] - instead of failing
with an ordered-child-section error: when the child precedes its parent
in the order list it has already been detached from the section map when
the order scan reaches its key, so the check never fires. -/
theorem c4_counterexample :
    moduleSectionIds [c4ParentAfterChildOrder, c4ChildBlock]
      = .ok [some "first", some "second"] := rfl

theorem getCollection_nil (m : ModuleS) (h : m.collections = []) (t : VType) :
    m.getCollection t = [] := by
  unfold ModuleS.getCollection
  rw [h]
  cases t <;> rfl

theorem addMaktabaFlagHelp_nil (m : ModuleS) (p : PluginS) (h : m.collections = []) :
    m.addMaktabaFlagHelp p = .ok (m, p) := by
  unfold ModuleS.addMaktabaFlagHelp
  rw [getCollection_nil m h]
  simp

theorem closeDefaultsStep_nil (m : ModuleS) (p : PluginS)
    (row : VType × String × String) (h : m.collections = []) :
    closeDefaultsStep (m, p) row = .ok (m, p) := by
  unfold closeDefaultsStep
  by_cases hf : row.1 = .FLAG
  · simp [hf, addMaktabaFlagHelp_nil m p h, bind, Except.bind, getCollection_nil m h]
  · simp [hf, bind, Except.bind, getCollection_nil m h]

theorem closeDefaults_nil (m : ModuleS) (p : PluginS) (h : m.collections = []) :
    closeDefaults m p = .ok (m, p) := by
  unfold closeDefaults defaultSectionTable
  simp [List.foldlM, closeDefaultsStep_nil _ _ _ h, bind, Except.bind, pure, Except.pure]

theorem orderWalk_skip {secs : List (Option String)} (bs : List String)
    (order : List String) (idx : Nat)
    (h : ∀ b ∈ bs, b ∉ order ∧ (some b) ∉ secs) :
    orderWalk secs bs order idx = order := by
  induction bs generalizing idx with
  | nil => rfl
  | cons b bs ih =>
    unfold orderWalk
    rw [if_neg (h b (List.mem_cons_self _ _)).1,
        if_neg (h b (List.mem_cons_self _ _)).2]
    exact ih _ (fun b' hb' => h b' (List.mem_cons_of_mem _ hb'))

/-- When the explicit order and the section ids involve no built-in
section names and no about section, the computed order is exactly the
explicit order. -/
theorem getSectionOrder_all_custom (ol : List String) (sk : List (Option String))
    (h : ∀ b ∈ defaultSectionOrder, b ∉ ol ∧ (some b) ∉ sk)
    (ha : (some "about") ∉ sk) :
    getSectionOrder (some ol) sk = ol := by
  simp only [getSectionOrder, Option.getD]
  rw [orderWalk_skip _ _ _ h]
  rw [if_neg (fun hc => ha hc.1)]

/-- Closing a module holding a top-level section pid and a child section
cid of pid, with cid ordered after pid: the parent's expansion re-adds
the child before the order scan reaches its key, so the ordered-child
error fires. -/
theorem close_child_ordered_after_parent (pid cid pname cname : String)
    (hne : pid ≠ cid) (hp0 : pid ≠ "")
    (hpd : pid ∉ defaultSectionOrder) (hcd : cid ∉ defaultSectionOrder)
    (hpa : pid ≠ "about") (hca : cid ≠ "about") :
    ModuleS.close { sections := [(some pid, sectionBlock pname pid), (some cid, childSectionBlock cname cid pid)], order := some [pid, cid] } {}
      = .error (.orderedChildSections (some cid) [pid, cid]) := by
  have hfacts : ∀ b ∈ defaultSectionOrder, b ∉ [pid, cid]
      ∧ (some b : Option String) ∉ [some pid, some cid] := by
    intro b hb
    constructor
    · intro hmem
      rcases List.mem_cons.1 hmem with rfl | hmem'
      · exact hpd hb
      · rcases List.mem_cons.1 hmem' with rfl | h0
        · exact hcd hb
        · cases h0
    · intro hmem
      rcases List.mem_cons.1 hmem with heq | hmem'
      · exact hpd ((Option.some_inj.1 heq) ▸ hb)
      · rcases List.mem_cons.1 hmem' with heq | h0
        · exact hcd ((Option.some_inj.1 heq) ▸ hb)
        · cases h0
  have habout : (some "about" : Option String) ∉ [some pid, some cid] := by
    intro hmem
    rcases List.mem_cons.1 hmem with heq | hmem'
    · exact hpa (Option.some_inj.1 heq).symm
    · rcases List.mem_cons.1 hmem' with heq | h0
      · exact hca (Option.some_inj.1 heq).symm
      · cases h0
  unfold ModuleS.close
  rw [closeDefaults_nil _ _ rfl]
  simp only [bind, Except.bind]
  rw [show checkBackmatters _ ([] : List (Option String × Block)) = .ok () from rfl]
  rw [show ([(some pid, sectionBlock pname pid), (some cid, childSectionBlock cname cid pid)].map Prod.fst) = [some pid, some cid] from rfl]
  rw [getSectionOrder_all_custom [pid, cid] [some pid, some cid] hfacts habout]
  have hcc : collectChildren [some pid, some cid]
      [(some pid, sectionBlock pname pid), (some cid, childSectionBlock cname cid pid)] [] []
      = .ok ([(pid, [childSectionBlock cname cid pid])], [some cid]) := by
    simp [collectChildren, hp0, sectionBlock, childSectionBlock, alAppend, alLookup]
  rw [hcc]
  dsimp only
  have hrm : ([some cid].foldl (fun d k => alRemove k d)
      [(some pid, sectionBlock pname pid), (some cid, childSectionBlock cname cid pid)])
      = [(some pid, sectionBlock pname pid)] := by
    simp [alRemove, hne]
  rw [hrm]
  have hneg : (stableSort (fun a b => pyStrLe (a.getD "") (b.getD ""))
      (List.filter (fun k => decide (k ∉ List.map some [pid, cid]))
        (List.map Prod.fst [(some pid, sectionBlock pname pid)]))) = [] := by
    simp [stableSort]
  rw [hneg]
  simp only [ne_eq, not_true_eq_false, if_false, reduceIte]
  have hri : reinsertLoop [(pid, [childSectionBlock cname cid pid])] [pid, cid] [pid, cid]
      [(some pid, sectionBlock pname pid)]
      = .error (.orderedChildSections (some cid) [pid, cid]) := by
    simp [reinsertLoop, addChildSections, alLookup, alSet, alRemove, stableSort,
      stableInsert, sectionBlock, childSectionBlock, hne, hp0, Ne.symm hne]
  rw [hri]

/-- Closing the same module with cid ordered before its parent pid: the
already-detached child is silently skipped, the close succeeds, and the
child ends up right after its parent with level one. -/
theorem close_child_ordered_before_parent (pid cid pname cname : String)
    (hne : pid ≠ cid) (hp0 : pid ≠ "")
    (hpd : pid ∉ defaultSectionOrder) (hcd : cid ∉ defaultSectionOrder)
    (hpa : pid ≠ "about") (hca : cid ≠ "about") :
    ModuleS.close { sections := [(some pid, sectionBlock pname pid), (some cid, childSectionBlock cname cid pid)], order := some [cid, pid] } {}
      = .ok ({ sections := [(some pid, { sectionBlock pname pid with level := some 0 }), (some cid, { childSectionBlock cname cid pid with level := some 1 })], order := some [cid, pid] }, {}) := by
  have hfacts : ∀ b ∈ defaultSectionOrder, b ∉ [cid, pid]
      ∧ (some b : Option String) ∉ [some pid, some cid] := by
    intro b hb
    constructor
    · intro hmem
      rcases List.mem_cons.1 hmem with rfl | hmem'
      · exact hcd hb
      · rcases List.mem_cons.1 hmem' with rfl | h0
        · exact hpd hb
        · cases h0
    · intro hmem
      rcases List.mem_cons.1 hmem with heq | hmem'
      · exact hpd ((Option.some_inj.1 heq) ▸ hb)
      · rcases List.mem_cons.1 hmem' with heq | h0
        · exact hcd ((Option.some_inj.1 heq) ▸ hb)
        · cases h0
  have habout : (some "about" : Option String) ∉ [some pid, some cid] := by
    intro hmem
    rcases List.mem_cons.1 hmem with heq | hmem'
    · exact hpa (Option.some_inj.1 heq).symm
    · rcases List.mem_cons.1 hmem' with heq | h0
      · exact hca (Option.some_inj.1 heq).symm
      · cases h0
  unfold ModuleS.close
  rw [closeDefaults_nil _ _ rfl]
  simp only [bind, Except.bind]
  rw [show checkBackmatters _ ([] : List (Option String × Block)) = .ok () from rfl]
  rw [show ([(some pid, sectionBlock pname pid), (some cid, childSectionBlock cname cid pid)].map Prod.fst) = [some pid, some cid] from rfl]
  rw [getSectionOrder_all_custom [cid, pid] [some pid, some cid] hfacts habout]
  have hcc : collectChildren [some pid, some cid]
      [(some pid, sectionBlock pname pid), (some cid, childSectionBlock cname cid pid)] [] []
      = .ok ([(pid, [childSectionBlock cname cid pid])], [some cid]) := by
    simp [collectChildren, hp0, sectionBlock, childSectionBlock, alAppend, alLookup]
  rw [hcc]
  dsimp only
  have hrm : ([some cid].foldl (fun d k => alRemove k d)
      [(some pid, sectionBlock pname pid), (some cid, childSectionBlock cname cid pid)])
      = [(some pid, sectionBlock pname pid)] := by
    simp [alRemove, hne]
  rw [hrm]
  have hneg : (stableSort (fun a b => pyStrLe (a.getD "") (b.getD ""))
      (List.filter (fun k => decide (k ∉ List.map some [cid, pid]))
        (List.map Prod.fst [(some pid, sectionBlock pname pid)]))) = [] := by
    simp [stableSort]
  rw [hneg]
  simp only [ne_eq, not_true_eq_false, if_false, reduceIte]
  have hri : reinsertLoop [(pid, [childSectionBlock cname cid pid])] [cid, pid] [cid, pid]
      [(some pid, sectionBlock pname pid)]
      = .ok [(some pid, { sectionBlock pname pid with level := some 0 }),
             (some cid, { childSectionBlock cname cid pid with level := some 1 })] := by
    simp [reinsertLoop, addChildSections, alLookup, alSet, alRemove, stableSort,
      stableInsert, sectionBlock, childSectionBlock, hne, hp0, Ne.symm hne]
  rw [hri]

/-- C4 amended: for any two distinct non-built-in, non-about section ids,
a module holding a top-level section pid and a child section cid of pid
fails at close with the ordered-child-section error exactly when the
child appears in the order list after its parent (so the parent's
expansion has re-inserted it before the order scan reaches its key);
when the child precedes its parent in the order list, close succeeds and
the child is still emitted right after its parent.  Merging the two
section blocks in either order does not change either outcome. -/
theorem c4_ordered_child_position :
    (∀ pid cid pname cname : String, pid ≠ cid → pid ≠ "" →
      pid ∉ defaultSectionOrder → cid ∉ defaultSectionOrder →
      pid ≠ "about" → cid ≠ "about" →
      ModuleS.close { sections := [(some pid, sectionBlock pname pid), (some cid, childSectionBlock cname cid pid)], order := some [pid, cid] } {}
        = .error (.orderedChildSections (some cid) [pid, cid])
      ∧ ModuleS.close { sections := [(some pid, sectionBlock pname pid), (some cid, childSectionBlock cname cid pid)], order := some [cid, pid] } {}
        = .ok ({ sections := [(some pid, { sectionBlock pname pid with level := some 0 }), (some cid, { childSectionBlock cname cid pid with level := some 1 })], order := some [cid, pid] }, {}))
    ∧ (∀ l : List Block, l.Perm [c4ParentFirstOrder, c4ChildBlock] →
      moduleSectionIds l
        = .error (.orderedChildSections (some "second") ["first", "second"]))
    ∧ (∀ l : List Block, l.Perm [c4ParentAfterChildOrder, c4ChildBlock] →
      moduleSectionIds l = .ok [some "first", some "second"]) := by
  refine ⟨?_, ?_, ?_⟩
  · intro pid cid pname cname hne hp0 hpd hcd hpa hca
    exact ⟨close_child_ordered_after_parent pid cid pname cname hne hp0 hpd hcd hpa hca,
      close_child_ordered_before_parent pid cid pname cname hne hp0 hpd hcd hpa hca⟩
  · intro l hp
    rcases perm_pair_cases (by decide) hp with rfl | rfl <;> rfl
  · intro l hp
    rcases perm_pair_cases (by decide) hp with rfl | rfl <;> rfl

/-- Witness for the C4 theorem at concrete section ids and merge orders. -/
theorem c4_witness :
    (ModuleS.close { sections := [(some "par", sectionBlock "Parent" "par"), (some "chi", childSectionBlock "Child" "chi" "par")], order := some ["par", "chi"] } {}
        = .error (.orderedChildSections (some "chi") ["par", "chi"])
      ∧ ModuleS.close { sections := [(some "par", sectionBlock "Parent" "par"), (some "chi", childSectionBlock "Child" "chi" "par")], order := some ["chi", "par"] } {}
        = .ok ({ sections := [(some "par", { sectionBlock "Parent" "par" with level := some 0 }), (some "chi", { childSectionBlock "Child" "chi" "par" with level := some 1 })], order := some ["chi", "par"] }, {}))
    ∧ moduleSectionIds [c4ChildBlock, c4ParentFirstOrder]
      = .error (.orderedChildSections (some "second") ["first", "second"])
    ∧ moduleSectionIds [c4ChildBlock, c4ParentAfterChildOrder]
      = .ok [some "first", some "second"] := by
  refine ⟨?_, ?_, ?_⟩
  · exact c4_ordered_child_position.1 "par" "chi" "Parent" "Child" (by decide)
      (by decide) (by decide) (by decide) (by decide) (by decide)
  · exact c4_ordered_child_position.2.1 [c4ChildBlock, c4ParentFirstOrder]
      (List.Perm.swap _ _ _)
  · exact c4_ordered_child_position.2.2 [c4ChildBlock, c4ParentAfterChildOrder]
      (List.Perm.swap _ _ _)

end Vimdoc

namespace Vimdoc

def c5TopBlock : Block := { sectionBlock "Top" "top" with gOrder := some ["top"] }

def c5MidBlock : Block := childSectionBlock "Mid" "mid" "top"

def c5LeafBlock : Block := childSectionBlock "Leaf" "leaf" "mid"

/-- C5 counterexample: section leaf has parent_id mid, and mid exists
only as a child section (it has parent_id top itself), so there is no
top-level section with id mid; yet closing succeeds - the parent
existence check runs before child sections are detached from the map, so
a section that is itself a child counts as a valid parent, and leaf is
emitted nested beneath mid. -/
theorem c5_counterexample :
    moduleSectionIds [c5TopBlock, c5MidBlock, c5LeafBlock]
      = .ok [some "top", some "mid", some "leaf"] := rfl

/-- The child-collection loop fails with the no-such-parent error naming
the section and its missing parent as soon as it reaches a section whose
truthy parent id is not among the (pre-deletion) section keys, provided
the other sections carry no truthy parent id of their own. -/
theorem collectChildren_missing (secKeys : List (Option String))
    (l : List (Option String × Block)) (cmap : List (String × List Block))
    (dels : List (Option String)) (s : Block) (pid n : String) (k0 : Option String)
    (hmem : (k0, s) ∈ l) (hpid : s.parentId = some pid) (hp0 : pid ≠ "")
    (hmiss : (some pid) ∉ secKeys) (hname : s.name = some n)
    (hothers : ∀ kv ∈ l, kv.2 = s ∨ kv.2.parentId = none ∨ kv.2.parentId = some "") :
    collectChildren secKeys l cmap dels = .error (.noSuchParentSection n pid) := by
  induction l generalizing cmap dels with
  | nil => cases hmem
  | cons kv rest ih =>
    obtain ⟨k, t⟩ := kv
    rcases hothers (k, t) (List.mem_cons_self _ _) with hts | hfalsy
    · have hts' : t = s := hts
      subst hts'
      simp only [collectChildren]
      rw [hpid]
      simp [hp0, hmiss, hname]
    · have hsrest : (k0, s) ∈ rest := by
        rcases List.mem_cons.1 hmem with heq | hm
        · exfalso
          have ht : t = s := congrArg Prod.snd heq.symm
          rcases hfalsy with h0 | h0 <;> rw [ht, hpid] at h0 <;> simp at h0
          exact hp0 h0
        · exact hm
      simp only [collectChildren]
      have h0' : t.parentId = none ∨ t.parentId = some "" := hfalsy
      rcases h0' with h0 | h0 <;> rw [h0] <;> simp <;>
        exact ih _ _ hsrest (fun kv hkv => hothers kv (List.mem_cons_of_mem _ hkv))

end Vimdoc

namespace Vimdoc

/-- C5 amended: closing fails with a no-such-parent error naming the
section and the missing parent whenever some section's truthy parent_id
matches the id of no merged section at all - top-level or child alike
(sections that exist only as children do count as valid parents).
Stated for modules with no collections or backmatter and with the
offending section the only one carrying a truthy parent id, so that the
error is the one named. -/
theorem c5_missing_parent (m : ModuleS) (p : PluginS) (k0 : Option String)
    (s : Block) (pid n : String)
    (hcol : m.collections = []) (hbm : m.backmatters = [])
    (hmem : (k0, s) ∈ m.sections) (hpid : s.parentId = some pid) (hp0 : pid ≠ "")
    (hmiss : (some pid) ∉ m.sections.map Prod.fst) (hname : s.name = some n)
    (hothers : ∀ kv ∈ m.sections,
      kv.2 = s ∨ kv.2.parentId = none ∨ kv.2.parentId = some "") :
    ModuleS.close m p = .error (.noSuchParentSection n pid) := by
  unfold ModuleS.close
  rw [closeDefaults_nil m p hcol]
  simp only [bind, Except.bind, hbm]
  rw [show checkBackmatters (m.sections.map Prod.fst) [] = .ok () from rfl]
  rw [collectChildren_missing (m.sections.map Prod.fst) m.sections [] [] s pid n k0
    hmem hpid hp0 hmiss hname hothers]

/-- Witness for the C5 theorem at a concrete module. -/
theorem c5_witness :
    ModuleS.close
      { sections := [(some "alpha", childSectionBlock "Alpha" "alpha" "ghost")] } {}
      = .error (.noSuchParentSection "Alpha" "ghost") :=
  c5_missing_parent
    { sections := [(some "alpha", childSectionBlock "Alpha" "alpha" "ghost")] } {}
    (some "alpha") (childSectionBlock "Alpha" "alpha" "ghost") "ghost" "Alpha"
    rfl rfl (List.mem_cons_self _ _) rfl (by decide) (by decide) rfl
    (by intro kv hkv; simp only [List.mem_cons, List.not_mem_nil, or_false] at hkv;
        rw [hkv]; exact Or.inl rfl)

end Vimdoc
